import Mathlib

/-!
Shallow embedding of the sensor-fusion core of `triage-vision-android`
(`app/src/main/cpp/fast_pipeline`): `DepthProcessor`, `MotionAnalyzer` and
`PoseEstimator`.  C++ `float` arithmetic is modelled over `ℚ` (exact
rationals), machine integers over `ℤ`/`ℕ`, raw `uint16_t` depth samples as
`ℕ` values, and fallible queries return `Option`.  The mutable objects are
modelled by explicit state records; member functions become state-passing
functions.  The steady-clock reads inside the C++ become explicit `now`
parameters.
-/

namespace Triage

/-- Truncation toward zero, the semantics of C++ `static_cast<int>` applied
to a non-NaN floating value (modelled as a rational): floor for
non-negative values, ceiling for negative ones. -/
def ratTrunc (q : ℚ) : ℤ := if 0 ≤ q then ⌊q⌋ else ⌈q⌉

/-- `Position3D` from `depth_processor.h`: metres, camera-relative,
y positive downward, z positive away from the camera. -/
structure Position3D where
  x : ℚ
  y : ℚ
  z : ℚ
deriving DecidableEq

/-- `BoundingBox` from `depth_processor.h`: normalized [0,1] coordinates. -/
structure BoundingBox where
  x : ℚ
  y : ℚ
  width : ℚ
  height : ℚ
deriving DecidableEq

/-- `DepthStats` from `depth_processor.h`. -/
structure DepthStats where
  min_meters : ℚ
  max_meters : ℚ
  mean_meters : ℚ
  median_meters : ℚ
  valid_pixels : ℤ
  total_pixels : ℤ
deriving DecidableEq

/-- `DepthProcessor::PositionSample`: a 3D sample with its timestamp. -/
structure PositionSample where
  position : Position3D
  timestamp_ms : ℤ
deriving DecidableEq

/-- `DepthFallResult` from `depth_processor.h`. -/
structure DepthFallResult where
  fall_detected : Bool
  vertical_drop_meters : ℚ
  drop_velocity_ms : ℚ
  current_height_meters : ℚ
  confidence : ℚ
deriving DecidableEq

/-- `DepthMotionResult` from `depth_processor.h`.  The C++ stores the bed
proximity as `sqrt(dx*dx+dy*dy+dz*dz)`; since `ℚ` has no square root we
store the radicand (`bed_proximity_sq`) and phrase the zone test
`sqrt S <= r` as the equivalent `S <= r^2 ∧ 0 <= r`. -/
structure DepthMotionResult where
  distance_meters : ℚ
  position_3d : Position3D
  depth_motion_level : ℚ
  in_bed_zone : Bool
  bed_proximity_sq : ℚ
deriving DecidableEq

/-- Mutable state of a `DepthProcessor` instance (fields of the C++ class
that are ever written).  The members `fall_drop_threshold_ = 0.5`,
`fall_velocity_threshold_ = 1.5`, `fall_time_window_ms_ = 1000`,
`MAX_HISTORY_SIZE = 30` and `focal_length_x_ = focal_length_y_ = 500` are
never reassigned and appear as literals in the functions below. -/
structure DPState where
  initialized : Bool
  width : ℤ
  height : ℤ
  depth_map : List ℕ
  position_history : List PositionSample
  bed_center : Position3D
  bed_radius : ℚ
  principal_x : ℚ
  principal_y : ℚ
  last_distance : ℚ
  last_position : Position3D
deriving DecidableEq

/-- `DepthProcessor::getDepthAt`: bounds-checked, unit-converted point
query.  The C++ returns the sentinel `-1.0f` for "no measurement"; the
embedding returns `none`. -/
def getDepthAt (s : DPState) (x y : ℤ) : Option ℚ :=
  if s.initialized = false ∨ x < 0 ∨ s.width ≤ x ∨ y < 0 ∨ s.height ≤ y then
    none
  else
    let raw : ℕ := s.depth_map.getD (y * s.width + x).toNat 0
    if raw = 0 ∨ raw = 0xFFFF then none
    else some ((raw : ℚ) / 1000)

/-- Name claim C3 states the depth query by: the raw sample read at (x, y). -/
def rawSampleAt (s : DPState) (x y : ℤ) : ℕ :=
  s.depth_map.getD (y * s.width + x).toNat 0

/-- The inclusive integer range `[a, b]` visited by a C++
`for (v = a; v <= b; v++)` loop (empty when `b < a`). -/
def intRange (a b : ℤ) : List ℤ :=
  (List.range (b + 1 - a).toNat).map (fun i => a + (i : ℤ))

/-- Row-major traversal order of the nested pixel loops
`for (y = y1; y <= y2; y++) for (x = x1; x <= x2; x++)`;
each element is an `(x, y)` pair. -/
def rectPixels (x1 y1 x2 y2 : ℤ) : List (ℤ × ℤ) :=
  (intRange y1 y2).flatMap (fun y => (intRange x1 x2).map (fun x => (x, y)))

/-- `std::max(lo, std::min(v, hi))`, the clamp used in `calculateStats`. -/
def clampI (lo hi v : ℤ) : ℤ := max lo (min v hi)

/-- The valid depth readings collected by a rectangle scan: `getDepthAt`
at every pixel, keeping the readings with `depth > 0` (the C++ test
against the `-1` sentinel, which valid readings always pass). -/
def validDepths (s : DPState) (x1 y1 x2 y2 : ℤ) : List ℚ :=
  ((rectPixels x1 y1 x2 y2).filterMap (fun p => getDepthAt s p.1 p.2)).filter
    (fun d => decide (0 < d))

/-- The `std::nth_element` median of a non-empty list of readings: the
element that lands at index `len / 2` once sorted ascending. -/
def nthMedian (l : List ℚ) : ℚ :=
  (l.insertionSort (· ≤ ·)).getD (l.length / 2) 0

/-- `DepthProcessor::calculateStats`: converts the normalized bbox to
clamped inclusive pixel bounds, scans the rectangle, and aggregates the
valid readings; all statistics are zero when no pixel is valid. -/
def calculateStats (s : DPState) (bbox : BoundingBox) : DepthStats :=
  if s.initialized = false ∨ s.depth_map = [] then ⟨0, 0, 0, 0, 0, 0⟩
  else
    let x1 := clampI 0 (s.width - 1) (ratTrunc (bbox.x * s.width))
    let y1 := clampI 0 (s.height - 1) (ratTrunc (bbox.y * s.height))
    let x2 := clampI 0 (s.width - 1) (ratTrunc ((bbox.x + bbox.width) * s.width))
    let y2 := clampI 0 (s.height - 1) (ratTrunc ((bbox.y + bbox.height) * s.height))
    let valid := validDepths s x1 y1 x2 y2
    let total : ℤ := (rectPixels x1 y1 x2 y2).length
    if valid = [] then ⟨0, 0, 0, 0, 0, total⟩
    else
      { min_meters := valid.foldl min (valid.headD 0)
        max_meters := valid.foldl max (valid.headD 0)
        mean_meters := valid.sum / (valid.length : ℚ)
        median_meters := nthMedian valid
        valid_pixels := (valid.length : ℤ)
        total_pixels := total }

/-- `DepthProcessor::medianDepthInRegion`: clamps the pixel-space window
into frame bounds, collects valid readings, and returns their
`nth_element` median; the C++ `-1` sentinel becomes `none`. -/
def medianDepthInRegion (s : DPState) (x1 y1 x2 y2 : ℤ) : Option ℚ :=
  let depths := validDepths s (max 0 x1) (max 0 y1)
      (min (s.width - 1) x2) (min (s.height - 1) y2)
  if depths = [] then none else some (nthMedian depths)

/-- `DepthProcessor::estimate3DPosition`: bbox centre in RGB pixel space,
rescaled into depth pixel space (truncating), depth from the 5x5 median
window with a full-bbox median fallback, then the inverse pinhole
projection; a sentinel `(0,0,0)` when no valid depth is obtainable.
`depthCenter` is the bbox centre in RGB pixel space rescaled into depth
pixel space (the `depth_cx`/`depth_cy` computation), truncating. -/
def depthCenter (s : DPState) (bbox : BoundingBox) (rgb_width rgb_height : ℤ) :
    ℤ × ℤ :=
  (ratTrunc ((bbox.x + bbox.width / 2) * (rgb_width : ℚ)
      * ((s.width : ℚ) / (rgb_width : ℚ))),
   ratTrunc ((bbox.y + bbox.height / 2) * (rgb_height : ℚ)
      * ((s.height : ℚ) / (rgb_height : ℚ))))

def estimate3DPosition (s : DPState) (bbox : BoundingBox) (rgb_width rgb_height : ℤ) :
    Position3D :=
  if s.initialized = false ∨ s.depth_map = [] then ⟨0, 0, 0⟩
  else
    let depth_cx : ℤ := (depthCenter s bbox rgb_width rgb_height).1
    let depth_cy : ℤ := (depthCenter s bbox rgb_width rgb_height).2
    let d0 : ℚ := (medianDepthInRegion s (depth_cx - 5) (depth_cy - 5)
        (depth_cx + 5) (depth_cy + 5)).getD (-1)
    let d1 : ℚ := if d0 ≤ 0 then (calculateStats s bbox).median_meters else d0
    if d1 ≤ 0 then ⟨0, 0, 0⟩
    else
      { x := ((depth_cx : ℚ) - s.principal_x) * d1 / 500
        y := ((depth_cy : ℚ) - s.principal_y) * d1 / 500
        z := d1 }

/-- `DepthProcessor::init`: adopts the dimensions, sets the principal
point to the frame centre, and resizes the depth grid (new cells
zero-initialized, as `std::vector::resize` does). -/
def dpInit (s : DPState) (w h : ℤ) : DPState :=
  { s with
    initialized := true
    width := w
    height := h
    principal_x := (w : ℚ) / 2
    principal_y := (h : ℚ) / 2
    depth_map := s.depth_map.take (w * h).toNat
        ++ List.replicate ((w * h).toNat - s.depth_map.length) 0 }

/-- `DepthProcessor::updateDepthMap`: initializes on first call, rejects a
dimension mismatch as a no-op, and otherwise copies the `w*h` samples
into the stored grid. -/
def updateDepthMap (s : DPState) (data : List ℕ) (w h : ℤ) : DPState :=
  let s1 := if s.initialized = false then dpInit s w h else s
  if w ≠ s1.width ∨ h ≠ s1.height then s1
  else { s1 with depth_map := data.take (w * h).toNat
      ++ s1.depth_map.drop (w * h).toNat }

/-- `DepthProcessor::updatePositionHistory` with the steady-clock read
made explicit: append, evict from the front while the front's age exceeds
`fall_time_window_ms_ = 1000`, then evict from the front while the size
exceeds `MAX_HISTORY_SIZE = 30`. -/
def pushHistory (hist : List PositionSample) (pos : Position3D) (now : ℤ) :
    List PositionSample :=
  let h1 := hist ++ [⟨pos, now⟩]
  let h2 := h1.dropWhile (fun e => decide (1000 < now - e.timestamp_ms))
  h2.drop (h2.length - 30)

/-- `DepthProcessor::calculateVerticalDrop`: 0 with fewer than 2 samples,
otherwise the newest sample's y minus the minimum y in the window (the
variable called `max_y` in the C++, folded with `std::min` because lower
y means higher up). -/
def calculateVerticalDrop (hist : List PositionSample) : ℚ :=
  match hist with
  | [] => 0
  | f :: rest =>
    if rest = [] then 0
    else
      (rest.getLastD f).position.y
        - (f :: rest).foldl (fun m e => min m e.position.y) f.position.y

/-- `DepthProcessor::calculateDropVelocity`: 0 with fewer than 2 samples
or a non-positive first-to-last time delta, otherwise the first-to-last
y delta divided by the time delta in seconds. -/
def calculateDropVelocity (hist : List PositionSample) : ℚ :=
  match hist with
  | [] => 0
  | f :: rest =>
    if rest = [] then 0
    else
      let l := rest.getLastD f
      let dt : ℤ := l.timestamp_ms - f.timestamp_ms
      if dt ≤ 0 then 0
      else (l.position.y - f.position.y) / ((dt : ℚ) / 1000)

/-- `DepthProcessor::detectFall` with the clock explicit: validates the
estimated position, pushes it into the history, derives drop and
velocity, and applies the 0.5 m / 1.5 m/s thresholds (confidence 0.9 for
a fall, 0.3 for drop without velocity, 0 otherwise). -/
def detectFall (s : DPState) (bbox : BoundingBox) (rgb_width rgb_height now : ℤ) :
    DepthFallResult × DPState :=
  if s.initialized = false ∨ s.depth_map = [] then (⟨false, 0, 0, 0, 0⟩, s)
  else
    let pos := estimate3DPosition s bbox rgb_width rgb_height
    if pos.z ≤ 0 then (⟨false, 0, 0, 0, 0⟩, s)
    else
      let hist := pushHistory s.position_history pos now
      let vd := calculateVerticalDrop hist
      let dv := calculateDropVelocity hist
      let fd_conf : Bool × ℚ :=
        if 1/2 < vd ∧ 3/2 < dv then (true, 9/10)
        else if 1/2 < vd then (false, 3/10)
        else (false, 0)
      (⟨fd_conf.1, vd, dv, -pos.y, fd_conf.2⟩,
       { s with
         position_history := hist
         last_position := pos
         last_distance := pos.z })

/-- `DepthProcessor::analyzeMotion`: estimates the position, derives the
z-axis motion level and the bed-zone proximity, and unconditionally
stores the current position and distance. -/
def analyzeMotion (s : DPState) (bbox : BoundingBox) (rgb_width rgb_height : ℤ) :
    DepthMotionResult × DPState :=
  if s.initialized = false ∨ s.depth_map = [] then (⟨0, ⟨0, 0, 0⟩, 0, false, 0⟩, s)
  else
    let pos := estimate3DPosition s bbox rgb_width rgb_height
    let dml : ℚ :=
      if 0 < s.last_position.z ∧ 0 < pos.z then
        min 1 (|pos.z - s.last_position.z| * 10)
      else 0
    let prox_sq : ℚ := (pos.x - s.bed_center.x) * (pos.x - s.bed_center.x)
        + (pos.y - s.bed_center.y) * (pos.y - s.bed_center.y)
        + (pos.z - s.bed_center.z) * (pos.z - s.bed_center.z)
    let in_zone : Bool := decide (prox_sq ≤ s.bed_radius * s.bed_radius ∧ 0 ≤ s.bed_radius)
    (⟨pos.z, pos, dml, in_zone, prox_sq⟩,
     { s with last_position := pos, last_distance := pos.z })

/-- `MotionState` from `motion_analyzer.h`. -/
structure MotionState where
  motion_level : ℚ
  last_motion_timestamp : ℤ
  stillness_duration : ℤ
  is_still : Bool
deriving DecidableEq

/-- Mutable state of a `MotionAnalyzer` instance.  The previous RGBA frame
is modelled as a byte-indexed function together with its byte count
(`prev_size = 0` models `prev_frame_.empty()`). -/
structure MAState where
  stillness_threshold : ℚ
  history_frames : ℕ
  prev_frame : ℕ → ℕ
  prev_size : ℕ
  prev_width : ℕ
  prev_height : ℕ
  motion_history : List ℚ
  current_motion_level : ℚ
  last_motion_time : ℤ
  stillness_start_time : ℤ

/-- Luminance `0.299 R + 0.587 G + 0.114 B` of the RGBA pixel whose red
byte sits at `idx` in frame `f`. -/
def lum (f : ℕ → ℕ) (idx : ℕ) : ℚ :=
  (299 * (f idx : ℚ) + 587 * (f (idx + 1) : ℚ) + 114 * (f (idx + 2) : ℚ)) / 1000

/-- Coordinates visited by a `for (v = 0; v < n; v += 4)` loop. -/
def sampleCoords (n : ℕ) : List ℕ :=
  (List.range n).filter (fun v => v % 4 = 0)

/-- Byte indices of the red channel of every sampled pixel, in the order
the nested loops of `calculateFrameDifference` visit them. -/
def sampleIdx (w h : ℕ) : List ℕ :=
  (sampleCoords h).flatMap (fun y => (sampleCoords w).map (fun x => (y * w + x) * 4))

/-- `MotionAnalyzer::calculateFrameDifference`: average of the per-sample
normalized absolute luminance differences, amplified by 5 and clamped at
1; 0 when no pixel is sampled. -/
def calculateFrameDifference (cur prev : ℕ → ℕ) (w h : ℕ) : ℚ :=
  let diffs := (sampleIdx w h).map (fun i => |lum cur i - lum prev i| / 255)
  if diffs.length = 0 then 0
  else min 1 (diffs.sum / (diffs.length : ℚ) * 5)

/-- `MotionAnalyzer::reset` with the clock explicit. -/
def maReset (s : MAState) (now : ℤ) : MAState :=
  { s with
    prev_frame := fun _ => 0
    prev_size := 0
    prev_width := 0
    prev_height := 0
    motion_history := []
    current_motion_level := 0
    last_motion_time := now
    stillness_start_time := now }

/-- `MotionAnalyzer::init`: stores the configuration and resets. -/
def maInit (threshold : ℚ) (frames : ℕ) (now : ℤ) : MAState :=
  maReset
    { stillness_threshold := threshold
      history_frames := frames
      prev_frame := fun _ => 0
      prev_size := 0
      prev_width := 0
      prev_height := 0
      motion_history := []
      current_motion_level := 0
      last_motion_time := now
      stillness_start_time := now } now

/-- `MotionAnalyzer::analyze` with the clock explicit.  A first frame or a
resolution change stores the frame as baseline only; otherwise the frame
difference is pushed into the motion window (one front eviction past
`history_frames`), averaged into the smoothed level, and the stillness
clocks are updated. -/
def maAnalyze (s : MAState) (pixels : ℕ → ℕ) (w h : ℕ) (now : ℤ) :
    MotionState × MAState :=
  if s.prev_size = 0 ∨ s.prev_width ≠ w ∨ s.prev_height ≠ h then
    (⟨0, now, 0, true⟩,
     { s with
       prev_frame := pixels
       prev_size := w * h * 4
       prev_width := w
       prev_height := h
       last_motion_time := now
       stillness_start_time := now })
  else
    let fd := calculateFrameDifference pixels s.prev_frame w h
    let mh1 := s.motion_history ++ [fd]
    let mh2 := if s.history_frames < mh1.length then mh1.tail else mh1
    let cml := if mh2 = [] then s.current_motion_level
      else mh2.sum / (mh2.length : ℚ)
    let is_motion : Bool := decide (s.stillness_threshold < cml)
    let lmt := if is_motion then now else s.last_motion_time
    let sst := if is_motion then now else s.stillness_start_time
    (⟨cml, lmt, now - sst, !is_motion⟩,
     { s with
       prev_frame := pixels
       motion_history := mh2
       current_motion_level := cml
       last_motion_time := lmt
       stillness_start_time := sst })

/-- `Pose` from `yolo_detector.h`, in enumeration order
UNKNOWN = 0, LYING = 1, SITTING = 2, STANDING = 3, FALLEN = 4. -/
inductive Pose where
  | UNKNOWN
  | LYING
  | SITTING
  | STANDING
  | FALLEN
deriving DecidableEq

/-- The integer value of a `Pose` enumerator (`static_cast<int>`). -/
def poseIdx : Pose → ℕ
  | .UNKNOWN => 0
  | .LYING => 1
  | .SITTING => 2
  | .STANDING => 3
  | .FALLEN => 4

/-- The enumeration order the `for (i = 0; i < 5; i++)` selection loop
walks through. -/
def enumOrder : List Pose := [.UNKNOWN, .LYING, .SITTING, .STANDING, .FALLEN]

/-- `Detection` from `yolo_detector.h` (the class-name string is
irrelevant to the core and omitted). -/
structure Detection where
  x1 : ℚ
  y1 : ℚ
  x2 : ℚ
  y2 : ℚ
  confidence : ℚ
  class_id : ℤ
deriving DecidableEq

/-- `PoseHistory` from `pose_estimator.h`. -/
structure PoseHistory where
  pose : Pose
  timestamp : ℤ
  confidence : ℚ
deriving DecidableEq

/-- Mutable state of a `PoseEstimator` instance. -/
structure PEState where
  current_pose : Pose
  previous_pose : Pose
  pose_confidence : ℚ
  pose_start_time : ℤ
  last_pose_change_time : ℤ
  pose_history : List PoseHistory
deriving DecidableEq

/-- `PoseEstimator::reset` with the clock explicit. -/
def peReset (now : ℤ) : PEState :=
  { current_pose := .UNKNOWN
    previous_pose := .UNKNOWN
    pose_confidence := 0
    pose_start_time := now
    last_pose_change_time := now
    pose_history := [] }

/-- `PoseEstimator::estimatePoseFromBox`: fixed aspect-ratio and
vertical-centre rules evaluated in priority order. -/
def estimatePoseFromBox (det : Detection) : Pose :=
  let box_width := det.x2 - det.x1
  let box_height := det.y2 - det.y1
  let aspect := box_width / max box_height 1
  let center_y := (det.y1 + det.y2) / 2
  if 2 < aspect ∧ 7/10 < center_y then .FALLEN
  else if 3/2 < aspect then .LYING
  else if aspect < 1/2 then .STANDING
  else if aspect < 1 ∧ 2/5 < center_y then .SITTING
  else if aspect < 7/10 then .STANDING
  else .UNKNOWN

/-- Occurrences of label `p` among the entries `l`. -/
def cntPose (l : List PoseHistory) (p : Pose) : ℕ :=
  (l.filter (fun e => decide (e.pose = p))).length

/-- Summed confidence of label `p` among the entries `l`. -/
def sumConf (l : List PoseHistory) (p : Pose) : ℚ :=
  ((l.filter (fun e => decide (e.pose = p))).map (fun e => e.confidence)).sum

/-- The most-common-pose selection loop of `updatePoseHistory`: walks the
labels in enumeration order, keeping the first strict improvement of the
count, starting from `(UNKNOWN, 0, 0)`; on an update the running
confidence becomes the label's summed confidence over its count. -/
def bestOfCounts (cnt : Pose → ℕ) (sums : Pose → ℚ) : Pose × ℕ × ℚ :=
  enumOrder.foldl
    (fun acc p =>
      if acc.2.1 < cnt p then (p, cnt p, sums p / (cnt p : ℚ)) else acc)
    (Pose.UNKNOWN, 0, 0)

/-- The at-most-10 most recent entries the counting loop of
`updatePoseHistory` visits (it iterates from `rbegin`). -/
def recentPoses (hist : List PoseHistory) : List PoseHistory :=
  hist.reverse.take 10

/-- `PoseEstimator::updatePoseHistory` with the clock explicit: append,
cap the window at `MAX_HISTORY = 100`, count the at-most-10 most recent
entries per label, select the most common label, and promote it when
`count >= 5` or (`count >= 3` and its average confidence exceeds 0.7),
recording the change when the label differs; the running confidence
always becomes the selected label's average. -/
def updatePoseHistory (s : PEState) (pose : Pose) (conf : ℚ) (now : ℤ) : PEState :=
  let hist1 := s.pose_history ++ [⟨pose, now, conf⟩]
  let hist2 := hist1.drop (hist1.length - 100)
  let recent := recentPoses hist2
  let best := bestOfCounts (cntPose recent) (sumConf recent)
  let s1 :=
    if 5 ≤ best.2.1 ∨ (3 ≤ best.2.1 ∧ 7/10 < best.2.2) then
      if best.1 ≠ s.current_pose then
        { s with
          previous_pose := s.current_pose
          current_pose := best.1
          pose_start_time := now
          last_pose_change_time := now }
      else s
    else s
  { s1 with pose_history := hist2, pose_confidence := best.2.2 }

/-- The person-selection loop of `PoseEstimator::update`: highest
confidence detection with `class_id == 0`, confidence strictly above the
running best which starts at 0. -/
def findPerson (dets : List Detection) : Option Detection × ℚ :=
  dets.foldl
    (fun acc d =>
      if d.class_id = 0 ∧ acc.2 < d.confidence then (some d, d.confidence) else acc)
    (none, 0)

/-- `PoseEstimator::update` with the clock explicit: with no qualifying
person the confidence decays by 0.95 and nothing else changes; otherwise
the box is classified and pushed through the history stabilizer. -/
def peUpdate (s : PEState) (dets : List Detection) (now : ℤ) : PEState :=
  match findPerson dets with
  | (none, _) => { s with pose_confidence := s.pose_confidence * (19/20) }
  | (some p, best_conf) => updatePoseHistory s (estimatePoseFromBox p) best_conf now

/-- Modelled from the claim wording of C1 (refinement side): the minimum
y over the position window, the window being non-empty. -/
def windowMinY : List PositionSample → ℚ
  | [] => 0
  | f :: rest => rest.foldl (fun m e => min m e.position.y) f.position.y

/-- Modelled from the claim wording of C1 (refinement side): the drop
velocity `(last_y - first_y)` over the first-to-last time delta in
seconds, 0 when the window has fewer than 2 entries or the delta is
non-positive. -/
def specDropVelocity (hist : List PositionSample) : ℚ :=
  match hist.head?, hist.getLast? with
  | some f, some l =>
    if hist.length < 2 ∨ l.timestamp_ms - f.timestamp_ms ≤ 0 then 0
    else (l.position.y - f.position.y) * 1000 / ((l.timestamp_ms - f.timestamp_ms : ℤ) : ℚ)
  | _, _ => 0

/-- Modelled from the claim wording of C1 (refinement side): the vertical
drop after a `detectFall` push, `current_y - min_y_in_window` over the
post-push position window. -/
def specVerticalDropAfter (s : DPState) (bbox : BoundingBox)
    (rgb_width rgb_height now : ℤ) : ℚ :=
  (estimate3DPosition s bbox rgb_width rgb_height).y
    - windowMinY (pushHistory s.position_history
        (estimate3DPosition s bbox rgb_width rgb_height) now)

/-- Modelled from the claim wording of C1 (refinement side): the drop
velocity over the post-push position window. -/
def specDropVelocityAfter (s : DPState) (bbox : BoundingBox)
    (rgb_width rgb_height now : ℤ) : ℚ :=
  specDropVelocity (pushHistory s.position_history
    (estimate3DPosition s bbox rgb_width rgb_height) now)

/-- The at-most-10-most-recent window the stabilizer counted during the
update that produced the given post-update state. -/
def postWindow (s : PEState) (pose : Pose) (conf : ℚ) (now : ℤ) : List PoseHistory :=
  recentPoses (updatePoseHistory s pose conf now).pose_history

/-- The label the selection loop picks on the post-update window. -/
def postBest (s : PEState) (pose : Pose) (conf : ℚ) (now : ℤ) : Pose :=
  (bestOfCounts (cntPose (postWindow s pose conf now))
    (sumConf (postWindow s pose conf now))).1

section Helpers

/-- Folding `min` over sample ys never exceeds the start value. -/
theorem foldlMin_le_init (l : List PositionSample) (init : ℚ) :
    l.foldl (fun m e => min m e.position.y) init ≤ init := by
  induction l generalizing init with
  | nil => simp
  | cons a t ih =>
    simpa using le_trans (ih (min init a.position.y)) (min_le_left _ _)

/-- Folding `min` over sample ys bounds every member's y. -/
theorem foldlMin_le_mem {e : PositionSample} :
    ∀ (l : List PositionSample) (init : ℚ), e ∈ l →
      l.foldl (fun m e => min m e.position.y) init ≤ e.position.y := by
  intro l
  induction l with
  | nil => intro init he; cases he
  | cons a t ih =>
    intro init he
    rcases List.mem_cons.mp he with rfl | he'
    · simpa using le_trans (foldlMin_le_init t (min init e.position.y))
        (min_le_right _ _)
    · simpa using ih (min init a.position.y) he'

/-- After the age-based front eviction of `pushHistory`, every retained
entry of a timestamp-sorted list is at most 1000 ms old. -/
theorem dropWhile_age_bound (now : ℤ) :
    ∀ (l : List PositionSample),
      l.Pairwise (fun a b => a.timestamp_ms ≤ b.timestamp_ms) →
      ∀ e ∈ l.dropWhile (fun e => decide (1000 < now - e.timestamp_ms)),
        now - e.timestamp_ms ≤ 1000 := by
  intro l
  induction l with
  | nil => intro _ e he; simp at he
  | cons a t ih =>
    intro hp e he
    rw [List.dropWhile_cons] at he
    by_cases h : (1000 : ℤ) < now - a.timestamp_ms
    · rw [if_pos (decide_eq_true h)] at he
      exact ih (List.pairwise_cons.mp hp).2 e he
    · rw [if_neg (by simpa using h)] at he
      rcases List.mem_cons.mp he with rfl | he'
      · omega
      · have := (List.pairwise_cons.mp hp).1 e he'
        omega

/-- The person-selection fold of `PoseEstimator::update` finds nobody when
no detection has `class_id == 0` with positive confidence. -/
theorem findPerson_no_qualify :
    ∀ (dets : List Detection),
      (∀ d ∈ dets, ¬(d.class_id = 0 ∧ 0 < d.confidence)) →
      findPerson dets = (none, 0)
  | [], _ => rfl
  | a :: t, h => by
    have ha := h a (List.mem_cons_self a t)
    have ht := findPerson_no_qualify t (fun d hd => h d (List.mem_cons_of_mem a hd))
    unfold findPerson at ht ⊢
    simpa [if_neg ha] using ht

/-- Appending an element the predicate rejects leaves it as the last
survivor of a `dropWhile`. -/
theorem dropWhile_concat_getLast {α : Type} (p : α → Bool) (a : α) (h : p a = false) :
    ∀ (l : List α), (l ++ [a]).dropWhile p ≠ []
      ∧ ((l ++ [a]).dropWhile p).getLast? = some a
  | [] => by
    rw [List.nil_append, List.dropWhile_cons]
    rw [if_neg (by simp [h])]
    exact ⟨by simp, rfl⟩
  | b :: l => by
    rw [List.cons_append, List.dropWhile_cons]
    by_cases hb : p b = true
    · rw [if_pos hb]
      exact dropWhile_concat_getLast p a h l
    · rw [if_neg hb, ← List.cons_append]
      exact ⟨by simp, List.getLast?_concat _⟩

/-- Dropping fewer elements than the length preserves the last element. -/
theorem getLast?_drop_of_lt {α : Type} {l : List α} {n : ℕ} (h : n < l.length) :
    (l.drop n).getLast? = l.getLast? := by
  obtain ⟨t, ht⟩ := List.drop_suffix n l
  have hne : l.drop n ≠ [] := by
    intro hnil
    have hlen : (l.drop n).length = l.length - n := List.length_drop n l
    rw [hnil] at hlen
    simp at hlen
    omega
  obtain ⟨a, ha⟩ := Option.isSome_iff_exists.mp (List.getLast?_isSome.mpr hne)
  conv_rhs => rw [← ht]
  rw [List.getLast?_append, ha]
  rfl

/-- The entry pushed by `pushHistory` always survives as the back of the
window. -/
theorem pushHistory_getLast (hist : List PositionSample) (pos : Position3D) (now : ℤ) :
    (pushHistory hist pos now).getLast? = some ⟨pos, now⟩ := by
  have hp : (fun e : PositionSample => decide (1000 < now - e.timestamp_ms))
      ⟨pos, now⟩ = false := by simp
  obtain ⟨hne, hlast⟩ := dropWhile_concat_getLast
    (fun e : PositionSample => decide (1000 < now - e.timestamp_ms)) ⟨pos, now⟩ hp hist
  have hlen : 0 < (List.dropWhile
      (fun e : PositionSample => decide (1000 < now - e.timestamp_ms))
      (hist ++ [⟨pos, now⟩])).length := List.length_pos.mpr hne
  unfold pushHistory
  rw [getLast?_drop_of_lt (by omega)]
  exact hlast

/-- `calculateVerticalDrop` agrees with the claim-side formula
`current_y - min_y_in_window` on every non-empty window (with one sample
both are 0). -/
theorem calculateVerticalDrop_eq_spec (hist : List PositionSample)
    (e : PositionSample) (hlast : hist.getLast? = some e) :
    calculateVerticalDrop hist = e.position.y - windowMinY hist := by
  rcases hist with _ | ⟨f, rest⟩
  · simp at hlast
  · rcases rest with _ | ⟨g, t⟩
    · have : f = e := by simpa using hlast
      subst this
      simp [calculateVerticalDrop, windowMinY]
    · have hlast2 : (g :: t).getLastD f = e := by
        rw [List.getLastD_eq_getLast?]
        rw [List.getLast?_cons_cons] at hlast
        rw [hlast]
        rfl
      show (if (g :: t : List PositionSample) = [] then (0 : ℚ)
          else ((g :: t).getLastD f).position.y
            - (f :: g :: t).foldl (fun m e => min m e.position.y) f.position.y)
        = e.position.y - windowMinY (f :: g :: t)
      rw [if_neg (by simp), hlast2]
      congr 1
      show (f :: g :: t).foldl (fun m e => min m e.position.y) f.position.y
        = (g :: t).foldl (fun m e => min m e.position.y) f.position.y
      rw [List.foldl_cons]
      norm_num

/-- `calculateDropVelocity` agrees with the claim-side first-to-last
formula on every window. -/
theorem calculateDropVelocity_eq_spec (hist : List PositionSample) :
    calculateDropVelocity hist = specDropVelocity hist := by
  rcases hist with _ | ⟨f, rest⟩
  · rfl
  · rcases rest with _ | ⟨g, t⟩
    · simp [calculateDropVelocity, specDropVelocity]
    · have hL : (f :: g :: t).getLast? = some ((g :: t).getLastD f) := by
        rw [List.getLast?_cons_cons, List.getLastD_eq_getLast?]
        cases hgt : (g :: t).getLast? with
        | none => simp at hgt
        | some x => rfl
      simp only [calculateDropVelocity, specDropVelocity, List.head?_cons, hL]
      rw [if_neg (by simp : ¬(g :: t = ([] : List PositionSample)))]
      have hlen : ¬((f :: g :: t : List PositionSample).length < 2) := by
        simp [List.length_cons]
      by_cases hdt : ((g :: t).getLastD f).timestamp_ms - f.timestamp_ms ≤ 0
      · rw [if_pos hdt, if_pos (Or.inr hdt)]
      · rw [if_neg hdt, if_neg (by tauto)]
        rw [div_div_eq_mul_div]

/-- Truncation of an integer-valued rational is that integer. -/
theorem ratTrunc_intCast (n : ℤ) : ratTrunc (n : ℚ) = n := by
  unfold ratTrunc
  by_cases h : (0 : ℚ) ≤ (n : ℚ)
  · rw [if_pos h, Int.floor_intCast]
  · rw [if_neg h, Int.ceil_intCast]

/-- With no valid pixel, every statistic of `calculateStats` is zero; in
particular the median. -/
theorem calculateStats_no_valid_median (s : DPState) (bbox : BoundingBox)
    (h : (calculateStats s bbox).valid_pixels = 0) :
    (calculateStats s bbox).median_meters = 0 := by
  unfold calculateStats at h ⊢
  dsimp only at h ⊢
  split_ifs at h ⊢ with h1 h2
  · rfl
  · rfl
  · exfalso
    dsimp only at h
    have hlen : (validDepths s (clampI 0 (s.width - 1) (ratTrunc (bbox.x * s.width)))
        (clampI 0 (s.height - 1) (ratTrunc (bbox.y * s.height)))
        (clampI 0 (s.width - 1) (ratTrunc ((bbox.x + bbox.width) * s.width)))
        (clampI 0 (s.height - 1) (ratTrunc ((bbox.y + bbox.height) * s.height)))).length
          = 0 := by exact_mod_cast h
    exact h2 (List.length_eq_zero.mp hlen)

/-- A zero estimated depth means the whole sentinel position was
returned. -/
theorem estimate_z_zero_sentinel (s : DPState) (bbox : BoundingBox)
    (rgbw rgbh : ℤ) (hz : (estimate3DPosition s bbox rgbw rgbh).z = 0) :
    estimate3DPosition s bbox rgbw rgbh = ⟨0, 0, 0⟩ := by
  unfold estimate3DPosition at hz ⊢
  dsimp only at hz ⊢
  split_ifs at hz ⊢
  all_goals first
  | rfl
  | (dsimp only at hz; simp_all)

/-- A strictly positive estimated depth needs an initialized processor
with a non-empty depth map. -/
theorem estimate_z_pos_init (s : DPState) (bbox : BoundingBox) (rgbw rgbh : ℤ)
    (hz : 0 < (estimate3DPosition s bbox rgbw rgbh).z) :
    ¬(s.initialized = false ∨ s.depth_map = []) := by
  intro hc
  unfold estimate3DPosition at hz
  rw [if_pos hc] at hz
  exact lt_irrefl 0 hz

/-- Comparing a frame against itself gives frame difference 0. -/
theorem calculateFrameDifference_self (f : ℕ → ℕ) (w h : ℕ) :
    calculateFrameDifference f f w h = 0 := by
  unfold calculateFrameDifference
  dsimp only
  simp only [sub_self, abs_zero, zero_div, List.map_const']
  rw [List.sum_replicate]
  simp only [smul_zero, List.length_replicate]
  split_ifs with h1
  · rfl
  · norm_num

/-- The average of a non-empty list of values in [0, 1] lies in [0, 1]. -/
theorem avg_mem_unit (l : List ℚ) (hne : l ≠ [])
    (hb : ∀ v ∈ l, 0 ≤ v ∧ v ≤ 1) :
    0 ≤ l.sum / (l.length : ℚ) ∧ l.sum / (l.length : ℚ) ≤ 1 := by
  have hlen : 0 < (l.length : ℚ) := by
    have := List.length_pos.mpr hne
    exact_mod_cast this
  have hsum0 : 0 ≤ l.sum := List.sum_nonneg (fun v hv => (hb v hv).1)
  have hsum1 : l.sum ≤ (l.length : ℚ) := by
    have := List.sum_le_card_nsmul l 1 (fun v hv => (hb v hv).2)
    simpa using this
  constructor
  · positivity
  · rw [div_le_one hlen]
    exact hsum1

/-- Sum lower bound: every element at least `c` gives sum at least
`length * c`. -/
theorem sum_ge_length_mul (l : List ℚ) (c : ℚ) (hb : ∀ v ∈ l, c ≤ v) :
    (l.length : ℚ) * c ≤ l.sum := by
  have := List.card_nsmul_le_sum l c hb
  simpa using this

/-- Luminance of a frame of bytes lies in [0, 255]. -/
theorem lum_bounds (f : ℕ → ℕ) (hb : ∀ i, f i ≤ 255) (idx : ℕ) :
    0 ≤ lum f idx ∧ lum f idx ≤ 255 := by
  unfold lum
  have h0 := hb idx
  have h1 := hb (idx + 1)
  have h2 := hb (idx + 2)
  have c0 : ((f idx : ℚ)) ≤ 255 := by exact_mod_cast h0
  have c1 : ((f (idx + 1) : ℚ)) ≤ 255 := by exact_mod_cast h1
  have c2 : ((f (idx + 2) : ℚ)) ≤ 255 := by exact_mod_cast h2
  have n0 : (0 : ℚ) ≤ (f idx : ℚ) := by positivity
  have n1 : (0 : ℚ) ≤ (f (idx + 1) : ℚ) := by positivity
  have n2 : (0 : ℚ) ≤ (f (idx + 2) : ℚ) := by positivity
  constructor
  · positivity
  · rw [div_le_iff (by norm_num : (0 : ℚ) < 1000)]
    linarith

/-- The frame difference of two byte frames lies in [0, 1]. -/
theorem calculateFrameDifference_bounds (cur prev : ℕ → ℕ) (w h : ℕ)
    (hc : ∀ i, cur i ≤ 255) (hp : ∀ i, prev i ≤ 255) :
    0 ≤ calculateFrameDifference cur prev w h
    ∧ calculateFrameDifference cur prev w h ≤ 1 := by
  unfold calculateFrameDifference
  dsimp only
  split_ifs with h1
  · norm_num
  · have hmem : ∀ v ∈ (sampleIdx w h).map
        (fun i => |lum cur i - lum prev i| / 255), 0 ≤ v ∧ v ≤ 1 := by
      intro v hv
      rw [List.mem_map] at hv
      obtain ⟨i, -, rfl⟩ := hv
      have hcb := lum_bounds cur hc i
      have hpb := lum_bounds prev hp i
      constructor
      · positivity
      · rw [div_le_one (by norm_num : (0 : ℚ) < 255)]
        rw [abs_le]
        constructor <;> linarith
    have hne : (sampleIdx w h).map
        (fun i => |lum cur i - lum prev i| / 255) ≠ [] := by
      intro hnil
      rw [hnil] at h1
      exact h1 rfl
    have havg := avg_mem_unit _ hne hmem
    constructor
    · have := havg.1
      positivity
    · exact min_le_left _ _

/-- A frame whose every sampled luminance moved by at least 51 saturates
the amplified frame difference at 1. -/
theorem calculateFrameDifference_saturated (cur prev : ℕ → ℕ) (w h : ℕ)
    (hbig : ∀ i ∈ sampleIdx w h, 51 ≤ |lum cur i - lum prev i|)
    (hne : sampleIdx w h ≠ []) :
    calculateFrameDifference cur prev w h = 1 := by
  unfold calculateFrameDifference
  dsimp only
  have hlen : ((sampleIdx w h).map
      (fun i => |lum cur i - lum prev i| / 255)).length ≠ 0 := by
    rw [List.length_map]
    exact fun hnil => hne (List.length_eq_zero.mp hnil)
  rw [if_neg hlen]
  have hmem : ∀ v ∈ (sampleIdx w h).map
      (fun i => |lum cur i - lum prev i| / 255), 51/255 ≤ v := by
    intro v hv
    rw [List.mem_map] at hv
    obtain ⟨i, hi, rfl⟩ := hv
    have := hbig i hi
    rw [div_le_div_iff (by norm_num) (by norm_num : (0 : ℚ) < 255)]
    linarith
  have hsum := sum_ge_length_mul _ (51/255) hmem
  have hl : (0 : ℚ) < (((sampleIdx w h).map
      (fun i => |lum cur i - lum prev i| / 255)).length : ℚ) := by
    have : 0 < ((sampleIdx w h).map
        (fun i => |lum cur i - lum prev i| / 255)).length := Nat.pos_of_ne_zero hlen
    exact_mod_cast this
  refine min_eq_left ?_
  rw [div_mul_eq_mul_div, le_div_iff hl]
  linarith

/-- The most-common-pose selection loop picks a label with maximal count,
breaks ties toward the first-enumerated label, and carries that label's
count and average confidence. -/
theorem bestOfCounts_spec (cnt : Pose → ℕ) (sums : Pose → ℚ) :
    (∀ p, cnt p ≤ cnt (bestOfCounts cnt sums).1)
    ∧ (∀ p, poseIdx p < poseIdx (bestOfCounts cnt sums).1
        → cnt p < cnt (bestOfCounts cnt sums).1)
    ∧ (bestOfCounts cnt sums).2.1 = cnt (bestOfCounts cnt sums).1
    ∧ (0 < cnt (bestOfCounts cnt sums).1
        → (bestOfCounts cnt sums).2.2
          = sums (bestOfCounts cnt sums).1 / (cnt (bestOfCounts cnt sums).1 : ℚ)) := by
  unfold bestOfCounts enumOrder
  simp only [List.foldl_cons, List.foldl_nil]
  split_ifs <;> (dsimp only at *) <;>
    refine ⟨fun p => ?_, fun p => ?_, ?_, fun hc => ?_⟩ <;>
    first
    | rfl
    | omega
    | (exfalso; omega)
    | (cases p <;> simp only [poseIdx] at * <;> omega)

end Helpers

/-- C3: `getDepthAt` returns the no-measurement sentinel (`none`, never a
numeric metre value) exactly when the coordinates are out of bounds, the
frame is unconfigured, or the raw 16-bit sample is 0 or 0xFFFF; in every
other case it returns the raw millimetre sample divided by 1000, in
metres. -/
theorem getDepthAt_sentinel_characterization (s : DPState) (x y : ℤ) :
    getDepthAt s x y =
      if s.initialized = false ∨ x < 0 ∨ s.width ≤ x ∨ y < 0 ∨ s.height ≤ y
          ∨ rawSampleAt s x y = 0 ∨ rawSampleAt s x y = 0xFFFF then
        none
      else some ((rawSampleAt s x y : ℚ) / 1000) := by
  unfold getDepthAt rawSampleAt
  dsimp only
  split_ifs <;> first | rfl | tauto

/-- C9: for every state of the position history window,
`calculateVerticalDrop` is non-negative — the newest sample is itself in
the window, so current y minus the window's minimum y cannot be negative,
and a subject who has only risen yields a drop of 0. -/
theorem calculateVerticalDrop_nonneg (hist : List PositionSample) :
    0 ≤ calculateVerticalDrop hist := by
  rcases hist with _ | ⟨f, rest⟩
  · simp [calculateVerticalDrop]
  · by_cases h : rest = []
    · simp [calculateVerticalDrop, h]
    · have hmem : rest.getLastD f ∈ f :: rest := List.getLastD_mem_cons rest f
      have hle := foldlMin_le_mem (f :: rest) f.position.y hmem
      simp only [calculateVerticalDrop, h, if_false]
      linarith

/-- C4: after every push into the position history (append, evict from the
front past the 1000 ms horizon, evict from the front past the capacity),
the window holds at most 30 entries, no retained entry is older than the
horizon relative to the push time, and insertion order is preserved (the
result is a suffix of the appended list, still timestamp-sorted, so the
front is the oldest surviving sample).  Timestamps are assumed
non-decreasing and at most `now`, as the monotonic steady clock that
produces them guarantees. -/
theorem pushHistory_window_invariants (hist : List PositionSample)
    (pos : Position3D) (now : ℤ)
    (hsorted : hist.Pairwise (fun a b => a.timestamp_ms ≤ b.timestamp_ms))
    (hle : ∀ e ∈ hist, e.timestamp_ms ≤ now) :
    (pushHistory hist pos now).length ≤ 30
    ∧ (∀ e ∈ pushHistory hist pos now, now - e.timestamp_ms ≤ 1000)
    ∧ pushHistory hist pos now <:+ hist ++ [⟨pos, now⟩]
    ∧ (pushHistory hist pos now).Pairwise
        (fun a b => a.timestamp_ms ≤ b.timestamp_ms) := by
  have hL : List.Pairwise (fun a b : PositionSample => a.timestamp_ms ≤ b.timestamp_ms)
      (hist ++ [⟨pos, now⟩]) := by
    rw [List.pairwise_append]
    refine ⟨hsorted, by simp, ?_⟩
    intro a ha b hb
    rw [List.mem_singleton] at hb
    subst hb
    exact hle a ha
  have hsuf2 : List.dropWhile (fun e : PositionSample => decide (1000 < now - e.timestamp_ms))
        (hist ++ [⟨pos, now⟩])
      <:+ hist ++ [⟨pos, now⟩] := List.dropWhile_suffix _
  have hsuf : pushHistory hist pos now <:+ hist ++ [⟨pos, now⟩] := by
    unfold pushHistory
    exact List.IsSuffix.trans (List.drop_suffix _ _) hsuf2
  refine ⟨?_, ?_, hsuf, List.Pairwise.sublist hsuf.sublist hL⟩
  · unfold pushHistory
    rw [List.length_drop]
    omega
  · intro e he
    have he2 : e ∈ List.dropWhile
        (fun e : PositionSample => decide (1000 < now - e.timestamp_ms))
        (hist ++ [⟨pos, now⟩]) := by
      unfold pushHistory at he
      exact (List.drop_suffix _ _).sublist.subset he
    exact dropWhile_age_bound now (hist ++ [⟨pos, now⟩]) hL e he2

/-- Concrete instantiation of `pushHistory_window_invariants`: a sorted
two-entry window, one entry already at the horizon edge. -/
theorem pushHistory_window_invariants_witness :
    (pushHistory [⟨⟨0, 0, 2⟩, 100⟩, ⟨⟨0, 1, 2⟩, 1200⟩] ⟨0, 2, 2⟩ 1500).length ≤ 30
    ∧ (∀ e ∈ pushHistory [⟨⟨0, 0, 2⟩, 100⟩, ⟨⟨0, 1, 2⟩, 1200⟩] ⟨0, 2, 2⟩ 1500,
        1500 - e.timestamp_ms ≤ 1000)
    ∧ pushHistory [⟨⟨0, 0, 2⟩, 100⟩, ⟨⟨0, 1, 2⟩, 1200⟩] ⟨0, 2, 2⟩ 1500
        <:+ [⟨⟨0, 0, 2⟩, 100⟩, ⟨⟨0, 1, 2⟩, 1200⟩] ++ [⟨⟨0, 2, 2⟩, 1500⟩]
    ∧ (pushHistory [⟨⟨0, 0, 2⟩, 100⟩, ⟨⟨0, 1, 2⟩, 1200⟩] ⟨0, 2, 2⟩ 1500).Pairwise
        (fun a b => a.timestamp_ms ≤ b.timestamp_ms) :=
  pushHistory_window_invariants [⟨⟨0, 0, 2⟩, 100⟩, ⟨⟨0, 1, 2⟩, 1200⟩] ⟨0, 2, 2⟩ 1500
    (by decide) (by decide)

/-- C7: the first `updateDepthMap` call adopts the given dimensions and
sets the principal point to (width/2, height/2); a later call with
mismatched dimensions is a complete no-op; a matching call replaces the
whole stored grid (grid length being the configured size, which `init`
establishes) while dimensions and principal point stay put. -/
theorem updateDepthMap_cases (s : DPState) (data : List ℕ) (w h : ℤ) :
    (s.initialized = false →
      (updateDepthMap s data w h).initialized = true
      ∧ (updateDepthMap s data w h).width = w
      ∧ (updateDepthMap s data w h).height = h
      ∧ (updateDepthMap s data w h).principal_x = (w : ℚ) / 2
      ∧ (updateDepthMap s data w h).principal_y = (h : ℚ) / 2)
    ∧ (s.initialized = true → w ≠ s.width ∨ h ≠ s.height →
        updateDepthMap s data w h = s)
    ∧ (s.initialized = true → w = s.width → h = s.height →
        data.length = (w * h).toNat →
        s.depth_map.length = (w * h).toNat →
        (updateDepthMap s data w h).depth_map = data
        ∧ (updateDepthMap s data w h).width = s.width
        ∧ (updateDepthMap s data w h).height = s.height
        ∧ (updateDepthMap s data w h).principal_x = s.principal_x
        ∧ (updateDepthMap s data w h).principal_y = s.principal_y) := by
  refine ⟨?_, ?_, ?_⟩
  · intro hinit
    simp [updateDepthMap, dpInit, hinit]
  · intro hinit hne
    simp only [updateDepthMap, hinit]
    rw [if_neg (by simp : ¬(true = false)), if_pos hne]
  · intro hinit hw hh hdata hmap
    subst hw; subst hh
    simp only [updateDepthMap, hinit]
    rw [if_neg (by simp : ¬(true = false)), if_neg (by simp)]
    refine ⟨?_, rfl, rfl, rfl, rfl⟩
    simp only
    rw [← hdata, List.take_length, hdata, ← hmap, List.drop_length, List.append_nil]

/-- Concrete instantiation of `updateDepthMap_cases`: an unconfigured
processor, then a matching and a mismatched second call. -/
theorem updateDepthMap_cases_witness :
    ((updateDepthMap (dpInit ⟨false, 0, 0, [], [], ⟨0, 0, 2⟩, 3/2, 0, 0, 0, ⟨0, 0, 0⟩⟩ 2 1)
        [7, 8] 3 1)
      = dpInit ⟨false, 0, 0, [], [], ⟨0, 0, 2⟩, 3/2, 0, 0, 0, ⟨0, 0, 0⟩⟩ 2 1)
    ∧ ((updateDepthMap (dpInit ⟨false, 0, 0, [], [], ⟨0, 0, 2⟩, 3/2, 0, 0, 0, ⟨0, 0, 0⟩⟩ 2 1)
        [7, 8] 2 1).depth_map = [7, 8]) := by
  have h1 := (updateDepthMap_cases
      (dpInit ⟨false, 0, 0, [], [], ⟨0, 0, 2⟩, 3/2, 0, 0, 0, ⟨0, 0, 0⟩⟩ 2 1) [7, 8] 3 1).2.1
  have h2 := (updateDepthMap_cases
      (dpInit ⟨false, 0, 0, [], [], ⟨0, 0, 2⟩, 3/2, 0, 0, 0, ⟨0, 0, 0⟩⟩ 2 1) [7, 8] 2 1).2.2
  exact ⟨h1 (by decide) (by decide), (h2 (by decide) (by decide) (by decide)
    (by decide) (by decide)).1⟩

/-- C8: an update whose detection list has no qualifying person detection
multiplies the pose confidence by exactly 0.95 and changes nothing else:
current pose, previous pose, pose history and last-change timestamp are
untouched. -/
theorem peUpdate_no_person_decay (s : PEState) (dets : List Detection) (now : ℤ)
    (h : ∀ d ∈ dets, ¬(d.class_id = 0 ∧ 0 < d.confidence)) :
    (peUpdate s dets now).pose_confidence = s.pose_confidence * (19/20)
    ∧ (peUpdate s dets now).current_pose = s.current_pose
    ∧ (peUpdate s dets now).previous_pose = s.previous_pose
    ∧ (peUpdate s dets now).pose_history = s.pose_history
    ∧ (peUpdate s dets now).last_pose_change_time = s.last_pose_change_time := by
  unfold peUpdate
  rw [findPerson_no_qualify dets h]
  exact ⟨rfl, rfl, rfl, rfl, rfl⟩

/-- Concrete instantiation of `peUpdate_no_person_decay`: one non-person
detection (class 7). -/
theorem peUpdate_no_person_decay_witness :
    (peUpdate (peReset 0) [⟨0, 0, 1, 1, 1/2, 7⟩] 5).pose_confidence
        = (peReset 0).pose_confidence * (19/20)
    ∧ (peUpdate (peReset 0) [⟨0, 0, 1, 1, 1/2, 7⟩] 5).current_pose
        = (peReset 0).current_pose
    ∧ (peUpdate (peReset 0) [⟨0, 0, 1, 1, 1/2, 7⟩] 5).previous_pose
        = (peReset 0).previous_pose
    ∧ (peUpdate (peReset 0) [⟨0, 0, 1, 1, 1/2, 7⟩] 5).pose_history
        = (peReset 0).pose_history
    ∧ (peUpdate (peReset 0) [⟨0, 0, 1, 1, 1/2, 7⟩] 5).last_pose_change_time
        = (peReset 0).last_pose_change_time :=
  peUpdate_no_person_decay (peReset 0) [⟨0, 0, 1, 1, 1/2, 7⟩] 5 (by decide)

/-- C1: for every `detectFall` call whose estimated position is valid
(z > 0), with `vertical_drop` and `drop_velocity` defined over the
post-push window as the spec states them, the result is a detected fall
with confidence 0.9 exactly when `vertical_drop > 0.5` and
`drop_velocity > 1.5`; when only the drop threshold is exceeded the
result is no fall with confidence 0.3; otherwise no fall with
confidence 0. -/
theorem detectFall_threshold_decision (s : DPState) (bbox : BoundingBox)
    (rgbw rgbh now : ℤ)
    (hz : 0 < (estimate3DPosition s bbox rgbw rgbh).z) :
    ((detectFall s bbox rgbw rgbh now).1.fall_detected = true
        ∧ (detectFall s bbox rgbw rgbh now).1.confidence = 9/10
      ↔ 1/2 < specVerticalDropAfter s bbox rgbw rgbh now
        ∧ 3/2 < specDropVelocityAfter s bbox rgbw rgbh now)
    ∧ (1/2 < specVerticalDropAfter s bbox rgbw rgbh now
        → specDropVelocityAfter s bbox rgbw rgbh now ≤ 3/2
        → (detectFall s bbox rgbw rgbh now).1.fall_detected = false
          ∧ (detectFall s bbox rgbw rgbh now).1.confidence = 3/10)
    ∧ (specVerticalDropAfter s bbox rgbw rgbh now ≤ 1/2
        → (detectFall s bbox rgbw rgbh now).1.fall_detected = false
          ∧ (detectFall s bbox rgbw rgbh now).1.confidence = 0) := by
  have hc := estimate_z_pos_init s bbox rgbw rgbh hz
  have hvd : calculateVerticalDrop (pushHistory s.position_history
        (estimate3DPosition s bbox rgbw rgbh) now)
      = specVerticalDropAfter s bbox rgbw rgbh now := by
    unfold specVerticalDropAfter
    exact calculateVerticalDrop_eq_spec _ _ (pushHistory_getLast _ _ _)
  have hdv : calculateDropVelocity (pushHistory s.position_history
        (estimate3DPosition s bbox rgbw rgbh) now)
      = specDropVelocityAfter s bbox rgbw rgbh now := by
    unfold specDropVelocityAfter
    exact calculateDropVelocity_eq_spec _
  have hres : (detectFall s bbox rgbw rgbh now).1 =
      ⟨(if 1/2 < specVerticalDropAfter s bbox rgbw rgbh now
            ∧ 3/2 < specDropVelocityAfter s bbox rgbw rgbh now then ((true : Bool), (9/10 : ℚ))
          else if 1/2 < specVerticalDropAfter s bbox rgbw rgbh now then (false, 3/10)
          else (false, 0)).1,
        specVerticalDropAfter s bbox rgbw rgbh now,
        specDropVelocityAfter s bbox rgbw rgbh now,
        -(estimate3DPosition s bbox rgbw rgbh).y,
        (if 1/2 < specVerticalDropAfter s bbox rgbw rgbh now
            ∧ 3/2 < specDropVelocityAfter s bbox rgbw rgbh now then ((true : Bool), (9/10 : ℚ))
          else if 1/2 < specVerticalDropAfter s bbox rgbw rgbh now then (false, 3/10)
          else (false, 0)).2⟩ := by
    unfold detectFall
    rw [if_neg hc]
    dsimp only
    rw [if_neg (not_le.mpr hz), hvd, hdv]
  refine ⟨?_, ?_, ?_⟩
  · rw [hres]
    split_ifs with h1 h2
    · exact iff_of_true ⟨rfl, rfl⟩ h1
    · refine iff_of_false ?_ h1
      rintro ⟨hfd, -⟩
      simp at hfd
    · refine iff_of_false ?_ h1
      rintro ⟨hfd, -⟩
      simp at hfd
  · intro h2 h3
    rw [hres]
    rw [if_neg (by rintro ⟨-, h⟩; exact absurd h (not_lt.mpr h3)), if_pos h2]
    exact ⟨rfl, rfl⟩
  · intro h2
    rw [hres]
    rw [if_neg (by rintro ⟨h, -⟩; exact absurd h (not_lt.mpr h2)),
      if_neg (not_lt.mpr h2)]
    exact ⟨rfl, rfl⟩

/-- Concrete instantiation of `detectFall_threshold_decision`: a 1x1 depth
frame reading 1 m, full-frame bbox, empty prior history. -/
theorem detectFall_threshold_decision_witness :
    ((detectFall ⟨true, 1, 1, [1000], [], ⟨0, 0, 2⟩, 3/2, 1/2, 1/2, 0, ⟨0, 0, 0⟩⟩
          ⟨0, 0, 2, 2⟩ 1 1 0).1.fall_detected = true
        ∧ (detectFall ⟨true, 1, 1, [1000], [], ⟨0, 0, 2⟩, 3/2, 1/2, 1/2, 0, ⟨0, 0, 0⟩⟩
          ⟨0, 0, 2, 2⟩ 1 1 0).1.confidence = 9/10
      ↔ 1/2 < specVerticalDropAfter
            ⟨true, 1, 1, [1000], [], ⟨0, 0, 2⟩, 3/2, 1/2, 1/2, 0, ⟨0, 0, 0⟩⟩
            ⟨0, 0, 2, 2⟩ 1 1 0
        ∧ 3/2 < specDropVelocityAfter
            ⟨true, 1, 1, [1000], [], ⟨0, 0, 2⟩, 3/2, 1/2, 1/2, 0, ⟨0, 0, 0⟩⟩
            ⟨0, 0, 2, 2⟩ 1 1 0)
    ∧ (1/2 < specVerticalDropAfter
          ⟨true, 1, 1, [1000], [], ⟨0, 0, 2⟩, 3/2, 1/2, 1/2, 0, ⟨0, 0, 0⟩⟩
          ⟨0, 0, 2, 2⟩ 1 1 0
        → specDropVelocityAfter
          ⟨true, 1, 1, [1000], [], ⟨0, 0, 2⟩, 3/2, 1/2, 1/2, 0, ⟨0, 0, 0⟩⟩
          ⟨0, 0, 2, 2⟩ 1 1 0 ≤ 3/2
        → (detectFall ⟨true, 1, 1, [1000], [], ⟨0, 0, 2⟩, 3/2, 1/2, 1/2, 0, ⟨0, 0, 0⟩⟩
            ⟨0, 0, 2, 2⟩ 1 1 0).1.fall_detected = false
          ∧ (detectFall ⟨true, 1, 1, [1000], [], ⟨0, 0, 2⟩, 3/2, 1/2, 1/2, 0, ⟨0, 0, 0⟩⟩
            ⟨0, 0, 2, 2⟩ 1 1 0).1.confidence = 3/10)
    ∧ (specVerticalDropAfter
          ⟨true, 1, 1, [1000], [], ⟨0, 0, 2⟩, 3/2, 1/2, 1/2, 0, ⟨0, 0, 0⟩⟩
          ⟨0, 0, 2, 2⟩ 1 1 0 ≤ 1/2
        → (detectFall ⟨true, 1, 1, [1000], [], ⟨0, 0, 2⟩, 3/2, 1/2, 1/2, 0, ⟨0, 0, 0⟩⟩
            ⟨0, 0, 2, 2⟩ 1 1 0).1.fall_detected = false
          ∧ (detectFall ⟨true, 1, 1, [1000], [], ⟨0, 0, 2⟩, 3/2, 1/2, 1/2, 0, ⟨0, 0, 0⟩⟩
            ⟨0, 0, 2, 2⟩ 1 1 0).1.confidence = 0) :=
  detectFall_threshold_decision
    ⟨true, 1, 1, [1000], [], ⟨0, 0, 2⟩, 3/2, 1/2, 1/2, 0, ⟨0, 0, 0⟩⟩
    ⟨0, 0, 2, 2⟩ 1 1 0 (by
    norm_num [estimate3DPosition, depthCenter, ratTrunc, medianDepthInRegion, validDepths,
      rectPixels, intRange, getDepthAt, nthMedian,
      List.range_succ, List.range_zero, List.filterMap_cons, List.filter_cons,
      List.insertionSort, List.orderedInsert])

/-- C2 counterexample: the claim as stated is false for `analyzeMotion`.
On an initialized 1x1 processor whose only depth sample is invalid (raw
0), the estimated position has z = 0, yet `analyzeMotion` does not leave
`last_distance_` unchanged — it overwrites it (2 m becomes 0). -/
theorem analyzeMotion_sentinel_overwrites_cex :
    (estimate3DPosition ⟨true, 1, 1, [0], [], ⟨0, 0, 2⟩, 3/2, 1/2, 1/2, 2, ⟨0, 0, 2⟩⟩
        ⟨0, 0, 2, 2⟩ 1 1).z = 0
    ∧ (analyzeMotion ⟨true, 1, 1, [0], [], ⟨0, 0, 2⟩, 3/2, 1/2, 1/2, 2, ⟨0, 0, 2⟩⟩
        ⟨0, 0, 2, 2⟩ 1 1).2.last_distance
      ≠ (⟨true, 1, 1, [0], [], ⟨0, 0, 2⟩, 3/2, 1/2, 1/2, 2, ⟨0, 0, 2⟩⟩ : DPState).last_distance := by
  constructor
  · norm_num [estimate3DPosition, depthCenter, ratTrunc, medianDepthInRegion, validDepths,
      rectPixels, intRange, getDepthAt, nthMedian, calculateStats, clampI,
      List.range_succ, List.range_zero, List.filterMap_cons, List.filter_cons,
      List.insertionSort, List.orderedInsert]
  · norm_num [analyzeMotion, estimate3DPosition, depthCenter, ratTrunc, medianDepthInRegion,
      validDepths, rectPixels, intRange, getDepthAt, nthMedian, calculateStats, clampI,
      List.range_succ, List.range_zero, List.filterMap_cons, List.filter_cons,
      List.insertionSort, List.orderedInsert]

/-- C2 (amended): when `estimate3DPosition` can obtain no valid depth by
either the 5x5 median window or the full-box median fallback it returns a
position with z = 0; `detectFall` treats a z = 0 position as unmeasured
and leaves the whole state — position history, `last_position_`,
`last_distance_` — unchanged; `analyzeMotion` appends nothing to the
position history either, but (on an initialized processor with a
non-empty depth map) unconditionally overwrites `last_position_` and
`last_distance_` with the sentinel. -/
theorem estimate_sentinel_consumers (s : DPState) (bbox : BoundingBox)
    (rgbw rgbh now : ℤ) :
    (medianDepthInRegion s ((depthCenter s bbox rgbw rgbh).1 - 5)
        ((depthCenter s bbox rgbw rgbh).2 - 5)
        ((depthCenter s bbox rgbw rgbh).1 + 5)
        ((depthCenter s bbox rgbw rgbh).2 + 5) = none →
      (calculateStats s bbox).valid_pixels = 0 →
      (estimate3DPosition s bbox rgbw rgbh).z = 0)
    ∧ ((estimate3DPosition s bbox rgbw rgbh).z = 0 →
        (detectFall s bbox rgbw rgbh now).2 = s)
    ∧ (s.initialized = true → s.depth_map ≠ [] →
        (estimate3DPosition s bbox rgbw rgbh).z = 0 →
        (analyzeMotion s bbox rgbw rgbh).2.position_history = s.position_history
        ∧ (analyzeMotion s bbox rgbw rgbh).2.last_position = ⟨0, 0, 0⟩
        ∧ (analyzeMotion s bbox rgbw rgbh).2.last_distance = 0) := by
  refine ⟨?_, ?_, ?_⟩
  · intro hm hv
    have hmed := calculateStats_no_valid_median s bbox hv
    unfold estimate3DPosition
    dsimp only
    rw [hm, Option.getD_none, if_pos (by norm_num : (-1 : ℚ) ≤ 0), hmed,
      if_pos (le_refl (0 : ℚ))]
    split_ifs <;> rfl
  · intro hz
    unfold detectFall
    dsimp only
    split_ifs with h1 h2 <;> first | rfl | exact absurd (le_of_eq hz) h2
  · intro hi hne hz
    have hsent := estimate_z_zero_sentinel s bbox rgbw rgbh hz
    unfold analyzeMotion
    rw [if_neg (by simp [hi, hne])]
    exact ⟨rfl, hsent, hz⟩

/-- Concrete instantiation of `estimate_sentinel_consumers` at the same
invalid-depth processor as the counterexample. -/
theorem estimate_sentinel_consumers_witness :
    (estimate3DPosition ⟨true, 1, 1, [0], [], ⟨0, 0, 2⟩, 3/2, 1/2, 1/2, 2, ⟨0, 0, 2⟩⟩
        ⟨0, 0, 2, 2⟩ 1 1).z = 0
    ∧ (detectFall ⟨true, 1, 1, [0], [], ⟨0, 0, 2⟩, 3/2, 1/2, 1/2, 2, ⟨0, 0, 2⟩⟩
        ⟨0, 0, 2, 2⟩ 1 1 5).2
      = ⟨true, 1, 1, [0], [], ⟨0, 0, 2⟩, 3/2, 1/2, 1/2, 2, ⟨0, 0, 2⟩⟩
    ∧ (analyzeMotion ⟨true, 1, 1, [0], [], ⟨0, 0, 2⟩, 3/2, 1/2, 1/2, 2, ⟨0, 0, 2⟩⟩
        ⟨0, 0, 2, 2⟩ 1 1).2.position_history = []
    ∧ (analyzeMotion ⟨true, 1, 1, [0], [], ⟨0, 0, 2⟩, 3/2, 1/2, 1/2, 2, ⟨0, 0, 2⟩⟩
        ⟨0, 0, 2, 2⟩ 1 1).2.last_position = ⟨0, 0, 0⟩
    ∧ (analyzeMotion ⟨true, 1, 1, [0], [], ⟨0, 0, 2⟩, 3/2, 1/2, 1/2, 2, ⟨0, 0, 2⟩⟩
        ⟨0, 0, 2, 2⟩ 1 1).2.last_distance = 0 := by
  have H := estimate_sentinel_consumers
    ⟨true, 1, 1, [0], [], ⟨0, 0, 2⟩, 3/2, 1/2, 1/2, 2, ⟨0, 0, 2⟩⟩ ⟨0, 0, 2, 2⟩ 1 1 5
  have hm : medianDepthInRegion
      ⟨true, 1, 1, [0], [], ⟨0, 0, 2⟩, 3/2, 1/2, 1/2, 2, ⟨0, 0, 2⟩⟩
      ((depthCenter ⟨true, 1, 1, [0], [], ⟨0, 0, 2⟩, 3/2, 1/2, 1/2, 2, ⟨0, 0, 2⟩⟩
          ⟨0, 0, 2, 2⟩ 1 1).1 - 5)
      ((depthCenter ⟨true, 1, 1, [0], [], ⟨0, 0, 2⟩, 3/2, 1/2, 1/2, 2, ⟨0, 0, 2⟩⟩
          ⟨0, 0, 2, 2⟩ 1 1).2 - 5)
      ((depthCenter ⟨true, 1, 1, [0], [], ⟨0, 0, 2⟩, 3/2, 1/2, 1/2, 2, ⟨0, 0, 2⟩⟩
          ⟨0, 0, 2, 2⟩ 1 1).1 + 5)
      ((depthCenter ⟨true, 1, 1, [0], [], ⟨0, 0, 2⟩, 3/2, 1/2, 1/2, 2, ⟨0, 0, 2⟩⟩
          ⟨0, 0, 2, 2⟩ 1 1).2 + 5) = none := by
    norm_num [medianDepthInRegion, depthCenter, ratTrunc, validDepths, rectPixels,
      intRange, getDepthAt, nthMedian,
      List.range_succ, List.range_zero, List.filterMap_cons, List.filter_cons]
  have hv : (calculateStats ⟨true, 1, 1, [0], [], ⟨0, 0, 2⟩, 3/2, 1/2, 1/2, 2, ⟨0, 0, 2⟩⟩
      ⟨0, 0, 2, 2⟩).valid_pixels = 0 := by
    norm_num [calculateStats, clampI, ratTrunc, validDepths, rectPixels,
      intRange, getDepthAt,
      List.range_succ, List.range_zero, List.filterMap_cons, List.filter_cons]
  have hz := H.1 hm hv
  exact ⟨hz, H.2.1 hz, (H.2.2 rfl (by simp) hz).1, (H.2.2 rfl (by simp) hz).2.1,
    (H.2.2 rfl (by simp) hz).2.2⟩

/-- C10: every `MotionState` returned by `analyze` has a motion level in
[0, 1]: the frame difference always lands in [0, 1] and the smoothed
level is an average over a window of such values (window entries and the
running level being in [0, 1] is the invariant `analyze` maintains from
the reset state). -/
theorem maAnalyze_motion_level_bounds (s : MAState) (pixels : ℕ → ℕ)
    (w h : ℕ) (now : ℤ)
    (hpix : ∀ i, pixels i ≤ 255) (hprev : ∀ i, s.prev_frame i ≤ 255)
    (hhist : ∀ v ∈ s.motion_history, 0 ≤ v ∧ v ≤ 1)
    (hcur : 0 ≤ s.current_motion_level ∧ s.current_motion_level ≤ 1) :
    0 ≤ (maAnalyze s pixels w h now).1.motion_level
    ∧ (maAnalyze s pixels w h now).1.motion_level ≤ 1 := by
  have hfd := calculateFrameDifference_bounds pixels s.prev_frame w h hpix hprev
  unfold maAnalyze
  dsimp only
  split_ifs
  all_goals first
  | exact ⟨le_refl 0, by norm_num⟩
  | exact hcur
  | (refine avg_mem_unit _ (by assumption) ?_
     intro v hv
     have hv2 : v ∈ s.motion_history
         ++ [calculateFrameDifference pixels s.prev_frame w h] := by
       first
       | exact List.mem_of_mem_tail hv
       | exact hv
     rcases List.mem_append.mp hv2 with hv' | hv'
     · exact hhist v hv'
     · rw [List.mem_singleton] at hv'
       subst hv'
       exact hfd)

/-- Concrete instantiation of `maAnalyze_motion_level_bounds` at a fresh
analyzer and an all-black 4x4 frame. -/
theorem maAnalyze_motion_level_bounds_witness :
    0 ≤ (maAnalyze (maInit (1/20) 30 0) (fun _ => 0) 4 4 7).1.motion_level
    ∧ (maAnalyze (maInit (1/20) 30 0) (fun _ => 0) 4 4 7).1.motion_level ≤ 1 :=
  maAnalyze_motion_level_bounds (maInit (1/20) 30 0) (fun _ => 0) 4 4 7
    (fun _ => by norm_num) (fun _ => by norm_num [maInit, maReset])
    (by simp [maInit, maReset]) (by norm_num [maInit, maReset])

/-- C6 counterexample: the claim as stated is false, because the reported
motion level is the smoothed window average.  Starting fresh, after an
all-black baseline and one all-white frame, a second all-white frame —
two identical consecutive frames — yields motion_level = 1/2 (not 0) and
is_still = false (not true). -/
theorem maAnalyze_identical_frames_cex :
    (maAnalyze (maAnalyze (maAnalyze (maInit (1/20) 30 0) (fun _ => 0) 4 4 0).2
        (fun _ => 255) 4 4 100).2 (fun _ => 255) 4 4 200).1.motion_level = 1/2
    ∧ (maAnalyze (maAnalyze (maAnalyze (maInit (1/20) 30 0) (fun _ => 0) 4 4 0).2
        (fun _ => 255) 4 4 100).2 (fun _ => 255) 4 4 200).1.is_still = false := by
  norm_num [maAnalyze, maInit, maReset, calculateFrameDifference, sampleIdx, sampleCoords, lum,
    List.range_succ, List.range_zero, List.filter_cons]
  norm_num [List.cons_ne_nil]

/-- C6 (amended): from a freshly initialized analyzer (empty motion
window), whose first frame is stored as baseline only: a second call on
the identical frame yields motion_level = 0 and is_still = true, and a
second call on a frame whose every sampled pixel's luminance changed by
at least 51 (20% of 255) yields motion_level = 1.0 after the x5
amplification and clamping (given at least one sampled pixel and a
positive window size).  Over arbitrary prior states the original claim
fails — the reported level is the window average (see the
counterexample). -/
theorem maAnalyze_fresh_pair (f g : ℕ → ℕ) (w h : ℕ) (th : ℚ) (n : ℕ)
    (t0 t1 t2 : ℤ) (hth : 0 ≤ th) (hn : 0 < n) :
    ((maAnalyze (maAnalyze (maInit th n t0) f w h t1).2 f w h t2).1.motion_level = 0
      ∧ (maAnalyze (maAnalyze (maInit th n t0) f w h t1).2 f w h t2).1.is_still = true)
    ∧ ((∀ i ∈ sampleIdx w h, 51 ≤ |lum g i - lum f i|) → sampleIdx w h ≠ [] →
        (maAnalyze (maAnalyze (maInit th n t0) f w h t1).2 g w h t2).1.motion_level = 1) := by
  have hs1 : (maAnalyze (maInit th n t0) f w h t1).2
      = ⟨th, n, f, w * h * 4, w, h, [], 0, t1, t1⟩ := rfl
  constructor
  · rw [hs1]
    unfold maAnalyze
    dsimp only
    by_cases hwh : w * h * 4 = 0
    · rw [if_pos (Or.inl hwh)]
      exact ⟨rfl, rfl⟩
    · rw [if_neg (by simp [hwh]), calculateFrameDifference_self f w h]
      dsimp only
      constructor
      · split_ifs <;> norm_num
      · split_ifs <;> simp_all [not_lt.mpr hth]
  · intro hbig hne
    have hwh : w * h * 4 ≠ 0 := by
      obtain ⟨i, hi⟩ := List.exists_mem_of_ne_nil _ hne
      unfold sampleIdx at hi
      rw [List.mem_flatMap] at hi
      obtain ⟨y, hy, hx⟩ := hi
      rw [List.mem_map] at hx
      obtain ⟨x, hx', -⟩ := hx
      unfold sampleCoords at hy hx'
      have hyh := List.mem_range.mp (List.mem_filter.mp hy).1
      have hxw := List.mem_range.mp (List.mem_filter.mp hx').1
      have : 0 < w := by omega
      have : 0 < h := by omega
      positivity
    rw [hs1]
    unfold maAnalyze
    dsimp only
    rw [if_neg (by simp [hwh]), calculateFrameDifference_saturated g f w h hbig hne]
    dsimp only
    split_ifs
    all_goals first
    | (norm_num [List.nil_append, List.sum_cons, List.sum_nil]; done)
    | (exfalso; simp_all)

/-- Concrete instantiation of `maAnalyze_fresh_pair`: all-black baseline,
then the identical frame (level 0, still) and an all-white frame (level
saturates at 1). -/
theorem maAnalyze_fresh_pair_witness :
    ((maAnalyze (maAnalyze (maInit (1/20) 30 0) (fun _ => 0) 4 4 50).2
        (fun _ => 0) 4 4 100).1.motion_level = 0
      ∧ (maAnalyze (maAnalyze (maInit (1/20) 30 0) (fun _ => 0) 4 4 50).2
        (fun _ => 0) 4 4 100).1.is_still = true)
    ∧ (maAnalyze (maAnalyze (maInit (1/20) 30 0) (fun _ => 0) 4 4 50).2
        (fun _ => 255) 4 4 100).1.motion_level = 1 := by
  have H := maAnalyze_fresh_pair (fun _ => 0) (fun _ => 255) 4 4 (1/20) 30 0 50 100
    (by norm_num) (by norm_num)
  exact ⟨H.1, H.2 (fun i _ => by norm_num [lum])
    (by norm_num [sampleIdx, sampleCoords, List.range_succ, List.range_zero,
      List.filter_cons])⟩

/-- C5: on every pose-history update, the stabilized pose is recomputed
from the at-most-10 most recent window entries by per-label counts and
confidence sums — the selected label has maximal count with ties broken
toward the first-enumerated label — and it is promoted to current pose
exactly when its count is at least 5, or its count is at least 3 and its
average confidence exceeds 0.7, the previous current pose being retained
otherwise.  In particular (scenario conjuncts): a box with aspect ratio
3.0 and vertical centre 0.9 at confidence 0.8 for 5 consecutive ticks
promotes Fallen, and a single such frame among otherwise-Standing frames
leaves the stabilized pose Standing. -/
theorem updatePoseHistory_stabilization :
    (∀ (s : PEState) (pose : Pose) (conf : ℚ) (now : ℤ),
      (∀ p, cntPose (postWindow s pose conf now) p
          ≤ cntPose (postWindow s pose conf now) (postBest s pose conf now))
      ∧ (∀ p, poseIdx p < poseIdx (postBest s pose conf now)
          → cntPose (postWindow s pose conf now) p
            < cntPose (postWindow s pose conf now) (postBest s pose conf now))
      ∧ (updatePoseHistory s pose conf now).current_pose
          = (if 5 ≤ cntPose (postWindow s pose conf now) (postBest s pose conf now)
                ∨ (3 ≤ cntPose (postWindow s pose conf now) (postBest s pose conf now)
                  ∧ 7/10 < sumConf (postWindow s pose conf now) (postBest s pose conf now)
                      / (cntPose (postWindow s pose conf now) (postBest s pose conf now) : ℚ))
              then postBest s pose conf now else s.current_pose))
    ∧ (List.foldl (fun st _ => peUpdate st [⟨0, 2/5, 3, 7/5, 4/5, 0⟩] 0) (peReset 0)
        (List.range 5)).current_pose = Pose.FALLEN
    ∧ (peUpdate (List.foldl (fun st _ => peUpdate st [⟨0, 0, 2/5, 1, 4/5, 0⟩] 0)
        (peReset 0) (List.range 9)) [⟨0, 2/5, 3, 7/5, 4/5, 0⟩] 0).current_pose
      = Pose.STANDING := by
  refine ⟨?_, ?_, ?_⟩
  · intro s pose conf now
    obtain ⟨ha, hb, hcnt, havg⟩ := bestOfCounts_spec
      (cntPose (postWindow s pose conf now)) (sumConf (postWindow s pose conf now))
    refine ⟨ha, hb, ?_⟩
    have hpw : postWindow s pose conf now
        = recentPoses (List.drop
            ((s.pose_history ++ [(⟨pose, now, conf⟩ : PoseHistory)]).length - 100)
            (s.pose_history ++ [(⟨pose, now, conf⟩ : PoseHistory)])) := rfl
    simp only [postBest]
    rw [hpw] at ha hb hcnt havg ⊢
    conv_lhs => rw [updatePoseHistory]
    dsimp only
    generalize hR : recentPoses (List.drop
        ((s.pose_history ++ [(⟨pose, now, conf⟩ : PoseHistory)]).length - 100)
        (s.pose_history ++ [(⟨pose, now, conf⟩ : PoseHistory)])) = R at ha hb hcnt havg ⊢
    by_cases hpos : 0 < cntPose R (bestOfCounts (cntPose R) (sumConf R)).1
    · rw [hcnt, havg hpos]
      split_ifs with h1 h2
      · rfl
      · exact (not_not.mp h2).symm
      · rfl
    · have h0 := Nat.eq_zero_of_not_pos hpos
      rw [hcnt, h0]
      rw [if_neg (by norm_num), if_neg (by norm_num)]
  · norm_num +decide [peUpdate, findPerson, estimatePoseFromBox, updatePoseHistory,
      recentPoses, cntPose, sumConf, bestOfCounts, enumOrder, peReset, List.range_succ,
      List.filter_cons, List.foldl_cons, List.foldl_nil]
  · set_option maxRecDepth 4000 in
    norm_num +decide [peUpdate, findPerson, estimatePoseFromBox, updatePoseHistory,
      recentPoses, cntPose, sumConf, bestOfCounts, enumOrder, peReset, List.range_succ,
      List.filter_cons, List.foldl_cons, List.foldl_nil]

/-- Concrete instantiation of `updatePoseHistory_stabilization`: from the
reset state one Fallen frame makes Fallen the (unpromoted) majority label,
so the never-seen label Unknown counts strictly below it. -/
theorem updatePoseHistory_stabilization_witness :
    cntPose (postWindow (peReset 0) Pose.FALLEN (4/5) 0) Pose.UNKNOWN
      < cntPose (postWindow (peReset 0) Pose.FALLEN (4/5) 0)
        (postBest (peReset 0) Pose.FALLEN (4/5) 0) :=
  ((updatePoseHistory_stabilization.1 (peReset 0) Pose.FALLEN (4/5) 0).2.1 Pose.UNKNOWN)
    (by norm_num +decide [postBest, postWindow, updatePoseHistory, recentPoses, cntPose,
      sumConf, bestOfCounts, enumOrder, peReset, poseIdx, List.filter_cons])

end Triage
